import Mathlib

/-!
Shallow embedding of the FastAPI + Neo4j social-media service
(`app/main.py`, `app/neo4j_driver.py`, `app/schemas.py`).

The graph store is modelled as explicit lists of `User` nodes, `Post` nodes
and the three edge kinds (`FOLLOWS`, `POSTED`, `LIKED`).  Because the store
enforces uniqueness constraints on `User.username` and `Post.id` (declared in
`startup`), edges are keyed by those natural keys.  Each HTTP handler is
translated into

  * a `...Records` function: the rows the handler's Cypher query returns,
  * a `...Write` function: the query's effect on the graph (for writes),
  * a `...Respond` function: the Python post-processing of the record list
    (`_single_or_none`, `if not records: raise HTTPException`, ...),

and the handler itself composes them.  Generated values (`uuid4()`,
`datetime.utcnow().isoformat()`) are passed in as parameters.  Timestamps are
ISO-8601 strings, compared lexicographically exactly as Neo4j's `ORDER BY`
compares string properties.
-/

namespace Neo4jSocmed

/-- A `User` node: `id`, `username`, `name`, `bio`, `created_at`
(`create_user` in `app/main.py`). -/
structure User where
  id : String
  username : String
  name : Option String
  bio : Option String
  created_at : String
deriving DecidableEq

/-- A `Post` node: `id`, `content`, `created_at` (`create_post`). -/
structure Post where
  id : String
  content : String
  created_at : String
deriving DecidableEq

/-- The graph store state.  `follows`, `posted` and `liked` hold the directed
edges as (source key, target key) pairs: `FOLLOWS : username → username`,
`POSTED : username → post id`, `LIKED : username → post id`. -/
structure Graph where
  users : List User
  posts : List Post
  follows : List (String × String)
  posted : List (String × String)
  liked : List (String × String)
deriving DecidableEq

/-- The empty store (fresh database after `startup` declared the constraints). -/
def emptyGraph : Graph := ⟨[], [], [], [], []⟩

/-- Whether a `User` node with the given username exists
(the Cypher pattern `(u:User {username: $username})` matches). -/
def userExists (g : Graph) (username : String) : Bool :=
  g.users.any (fun u => u.username == username)

/-- Whether a `Post` node with the given id exists
(the Cypher pattern `(p:Post {id: $id})` matches). -/
def postExists (g : Graph) (post_id : String) : Bool :=
  g.posts.any (fun p => p.id == post_id)

/-- Store invariants: the two uniqueness constraints declared in `startup`,
no duplicate `FOLLOWS`/`LIKED` edge per ordered pair (they are only ever
created by `MERGE`), every edge endpoint is an existing node (Neo4j edges
attach to nodes), and every post has at most one author (`POSTED` edges are
only created together with a fresh `Post` node in `create_post`). -/
def Graph.WF (g : Graph) : Prop :=
  (g.users.map User.username).Nodup ∧
  (g.posts.map Post.id).Nodup ∧
  g.follows.Nodup ∧
  g.liked.Nodup ∧
  (∀ e ∈ g.follows, userExists g e.1 = true ∧ userExists g e.2 = true) ∧
  (∀ e ∈ g.liked, userExists g e.1 = true ∧ postExists g e.2 = true) ∧
  (∀ e ∈ g.posted, userExists g e.1 = true ∧ postExists g e.2 = true) ∧
  g.posted.Pairwise (fun e f => e.2 = f.2 → e.1 = f.1)

instance (g : Graph) : Decidable g.WF := by
  unfold Graph.WF
  infer_instance

/-- An HTTP handler result: either a success response with a status code and a
body, or an `HTTPException` with a status code and a `detail` string. -/
inductive HResult (α : Type) where
  | ok (status : Nat) (body : α)
  | err (status : Nat) (detail : String)
deriving DecidableEq

/-- Request body of `POST /users` (`schemas.UserCreate`). -/
structure UserCreate where
  username : String
  name : Option String
  bio : Option String

/-- Response body of `POST /users` (`schemas.UserOut`). -/
structure UserOut where
  id : String
  username : String
  name : Option String
  bio : Option String
deriving DecidableEq

/-- `POST /users`.  `CREATE (u:User {...}) RETURN ...`; a username collision
violates the uniqueness constraint, the driver raises, and the
`except Exception` block turns it into `HTTPException(400)`.  `user_id` and
`created_at` stand for the generated `uuid4()` / `utcnow()` values. -/
def create_user (g : Graph) (user_id created_at : String) (payload : UserCreate) :
    HResult UserOut × Graph :=
  if userExists g payload.username then
    (.err 400 "uniqueness constraint violated: username already exists", g)
  else
    (.ok 201 ⟨user_id, payload.username, payload.name, payload.bio⟩,
     { g with users :=
        g.users ++ [⟨user_id, payload.username, payload.name, payload.bio, created_at⟩] })

/-- Response body of `GET /users/{username}`: the user's fields plus the three
aggregate counts. -/
structure UserProfile where
  id : String
  username : String
  name : Option String
  bio : Option String
  following_count : Nat
  followers_count : Nat
  posts_count : Nat
deriving DecidableEq

/-- `count(DISTINCT f)` for `OPTIONAL MATCH (u)-[:FOLLOWS]->(f:User)`:
the distinct followee nodes (distinct usernames, by the constraint). -/
def distinctFollowees (g : Graph) (username : String) : List String :=
  ((g.follows.filter (fun e => e.1 == username && userExists g e.2)).map Prod.snd).dedup

/-- `count(DISTINCT g)` for `OPTIONAL MATCH (g:User)-[:FOLLOWS]->(u)`. -/
def distinctFollowers (g : Graph) (username : String) : List String :=
  ((g.follows.filter (fun e => e.2 == username && userExists g e.1)).map Prod.fst).dedup

/-- `count(DISTINCT p)` for `OPTIONAL MATCH (u)-[:POSTED]->(p:Post)`. -/
def distinctPosts (g : Graph) (username : String) : List String :=
  ((g.posted.filter (fun e => e.1 == username && postExists g e.2)).map Prod.snd).dedup

/-- Rows of the `GET /users/{username}` query: one row per matching `User`
node (at most one under the uniqueness constraint). -/
def getUserRecords (g : Graph) (username : String) : List UserProfile :=
  (g.users.filter (fun u => u.username == username)).map fun u =>
    ⟨u.id, u.username, u.name, u.bio, (distinctFollowees g username).length,
     (distinctFollowers g username).length, (distinctPosts g username).length⟩

/-- Python side of `get_user`: `_single_or_none` then 404 on `None`. -/
def getUserRespond : List UserProfile → HResult UserProfile
  | [] => .err 404 "User not found"
  | r :: _ => .ok 200 r

/-- `GET /users/{username}` (read-only). -/
def get_user (g : Graph) (username : String) : HResult UserProfile :=
  getUserRespond (getUserRecords g username)

/-- Rows of the `POST /follow` query:
`MATCH (a:User {username: $a}), (b:User {username: $b}) MERGE ... RETURN a.username, b.username`.
The two node patterns may bind the same node, so `a = b` matches whenever the
user exists. -/
def followRecords (g : Graph) (a b : String) : List (String × String) :=
  if userExists g a && userExists g b then [(a, b)] else []

/-- Write effect of `POST /follow`: `MERGE (a)-[r:FOLLOWS]->(b)` creates the
edge only if it is absent; nothing happens when either `MATCH` fails. -/
def followWrite (g : Graph) (a b : String) : Graph :=
  if userExists g a && userExists g b then
    if (a, b) ∈ g.follows then g else { g with follows := g.follows ++ [(a, b)] }
  else g

/-- Python side of `follow`: `if not records: raise HTTPException(404)`,
else `{"detail": "OK", "data": records[0]}` with status 201. -/
def followRespond : List (String × String) → HResult (String × String)
  | [] => .err 404 "One or both users not found"
  | r :: _ => .ok 201 r

/-- `POST /follow`. -/
def follow (g : Graph) (a b : String) : HResult (String × String) × Graph :=
  (followRespond (followRecords g a b), followWrite g a b)

/-- Write effect of `POST /unfollow`:
`MATCH (a:User {username: $a})-[r:FOLLOWS]->(b:User {username: $b}) DELETE r`
deletes every matched edge; the pattern requires both `User` nodes. -/
def unfollowWrite (g : Graph) (a b : String) : Graph :=
  if userExists g a && userExists g b then
    { g with follows := g.follows.filter (fun e => !(e.1 == a && e.2 == b)) }
  else g

/-- `POST /unfollow`.  The handler ignores the returned `count(r)` rows and
always answers `200 {"detail": "OK"}`. -/
def unfollow (g : Graph) (a b : String) : HResult String × Graph :=
  (.ok 200 "OK", unfollowWrite g a b)

/-- Request body of `POST /posts` (`schemas.PostCreate`; `content` is
length-bounded by pydantic before the handler runs). -/
structure PostCreate where
  author_username : String
  content : String

/-- Response body of `POST /posts` (`schemas.PostOut`). -/
structure PostOut where
  id : String
  author_username : String
  content : String
  created_at : String
deriving DecidableEq

/-- Rows of the `POST /posts` query: `MATCH (a:User {username: $author_username})`
then `CREATE`; one row per matching author node, none if the author is
missing.  `post_id` stands for the fresh `uuid4()`. -/
def createPostRecords (g : Graph) (post_id created_at : String) (payload : PostCreate) :
    List PostOut :=
  if userExists g payload.author_username then
    [⟨post_id, payload.author_username, payload.content, created_at⟩]
  else []

/-- Write effect of `POST /posts`: when the author matches, create the `Post`
node and its `POSTED` edge in the same query; otherwise nothing. -/
def createPostWrite (g : Graph) (post_id created_at : String) (payload : PostCreate) : Graph :=
  if userExists g payload.author_username then
    { g with posts := g.posts ++ [⟨post_id, payload.content, created_at⟩],
             posted := g.posted ++ [(payload.author_username, post_id)] }
  else g

/-- Python side of `create_post`: 404 when no record came back. -/
def createPostRespond : List PostOut → HResult PostOut
  | [] => .err 404 "Author not found"
  | r :: _ => .ok 201 r

/-- `POST /posts`. -/
def create_post (g : Graph) (post_id created_at : String) (payload : PostCreate) :
    HResult PostOut × Graph :=
  (createPostRespond (createPostRecords g post_id created_at payload),
   createPostWrite g post_id created_at payload)

/-- Response body of `GET /posts/{post_id}`. -/
structure PostDetail where
  id : String
  author_username : String
  content : String
  created_at : String
  likes : Nat
deriving DecidableEq

/-- `count(u)` for `OPTIONAL MATCH (u:User)-[:LIKED]->(p)`: the number of
`LIKED` edges into the post whose source is a `User` node (no `DISTINCT`, but
`MERGE` keeps at most one edge per user). -/
def likesCount (g : Graph) (post_id : String) : Nat :=
  (g.liked.filter (fun e => e.2 == post_id && userExists g e.1)).length

/-- Rows of the `GET /posts/{post_id}` query:
`MATCH (p:Post {id: $id})<-[:POSTED]-(a:User)` — one row per (post, author)
match, so a post with no `POSTED` edge yields no row. -/
def getPostRecords (g : Graph) (post_id : String) : List PostDetail :=
  (g.posts.filter (fun p => p.id == post_id)).flatMap fun p =>
    (g.posted.filter (fun e => e.2 == p.id && userExists g e.1)).map fun e =>
      ⟨p.id, e.1, p.content, p.created_at, likesCount g p.id⟩

/-- Python side of `get_post`: 404 on an empty record list. -/
def getPostRespond : List PostDetail → HResult PostDetail
  | [] => .err 404 "Post not found"
  | r :: _ => .ok 200 r

/-- `GET /posts/{post_id}` (read-only). -/
def get_post (g : Graph) (post_id : String) : HResult PostDetail :=
  getPostRespond (getPostRecords g post_id)

/-- Response `data` of `POST /posts/{post_id}/like`. -/
structure LikeData where
  username : String
  post_id : String
deriving DecidableEq

/-- Rows of the like query:
`MATCH (u:User {username: $username}), (p:Post {id: $post_id}) MERGE ... RETURN`. -/
def likePostRecords (g : Graph) (post_id username : String) : List LikeData :=
  if userExists g username && postExists g post_id then [⟨username, post_id⟩] else []

/-- Write effect of the like query: `MERGE (u)-[:LIKED]->(p)`. -/
def likePostWrite (g : Graph) (post_id username : String) : Graph :=
  if userExists g username && postExists g post_id then
    if (username, post_id) ∈ g.liked then g
    else { g with liked := g.liked ++ [(username, post_id)] }
  else g

/-- Python side of `like_post`: 404 on no records, else
`{"detail": "liked", "data": records[0]}` with the default status 200. -/
def likePostRespond : List LikeData → HResult LikeData
  | [] => .err 404 "User or post not found"
  | r :: _ => .ok 200 r

/-- `POST /posts/{post_id}/like`. -/
def like_post (g : Graph) (post_id username : String) : HResult LikeData × Graph :=
  (likePostRespond (likePostRecords g post_id username), likePostWrite g post_id username)

/-- One row of the feed query. -/
structure FeedRow where
  id : String
  author_username : String
  content : String
  created_at : String
deriving DecidableEq

/-- Unordered matches of the feed pattern
`MATCH (me:User {username: $username})-[:FOLLOWS]->(other:User)-[:POSTED]->(p:Post)`:
each binding of (me, FOLLOWS edge, other, POSTED edge, p) yields a row.
`other` may bind the same node as `me` when a self-`FOLLOWS` edge exists. -/
def feedRows (g : Graph) (username : String) : List FeedRow :=
  (g.users.filter (fun u => u.username == username)).flatMap fun _me =>
    (g.follows.filter (fun e => e.1 == username)).flatMap fun e =>
      (g.users.filter (fun o => o.username == e.2)).flatMap fun other =>
        (g.posted.filter (fun pe => pe.1 == other.username)).flatMap fun pe =>
          (g.posts.filter (fun p => p.id == pe.2)).map fun p =>
            ⟨p.id, other.username, p.content, p.created_at⟩

/-- Lexicographic comparison of character lists by code point, the order
Neo4j's `ORDER BY` uses on string properties. -/
def strLeAux : List Char → List Char → Bool
  | [], _ => true
  | _ :: _, [] => false
  | c :: cs, d :: ds =>
    if c.toNat = d.toNat then strLeAux cs ds else Nat.blt c.toNat d.toNat

/-- Lexicographic `≤` on strings (the `ORDER BY` comparison). -/
def strLe (s t : String) : Bool := strLeAux s.data t.data

/-- The feed's `ORDER BY p.created_at DESC`: row `p` may precede row `q` when
`q.created_at ≤ p.created_at` (lexicographic on the ISO-8601 strings). -/
def feedDescOrder (p q : FeedRow) : Prop := strLe q.created_at p.created_at = true

instance : DecidableRel feedDescOrder := fun p q =>
  inferInstanceAs (Decidable (strLe q.created_at p.created_at = true))

/-- Rows of the feed query after `ORDER BY p.created_at DESC LIMIT $limit`. -/
def getFeedRecords (g : Graph) (username : String) (limit : Nat) : List FeedRow :=
  ((feedRows g username).insertionSort feedDescOrder).take limit

/-- `GET /feed/{username}`: the handler returns the record list directly with
status 200; it has no error branch. -/
def get_feed (g : Graph) (username : String) (limit : Nat) : HResult (List FeedRow) :=
  .ok 200 (getFeedRecords g username limit)

/-- `GET /feed/{username}` with the `limit` query parameter absent
(`limit: int = 20` in the handler signature). -/
def get_feed_default (g : Graph) (username : String) : HResult (List FeedRow) :=
  get_feed g username 20

/-! ### Store failures (`app/neo4j_driver.py` and the handlers' except blocks)

A store call either yields its record list or raises.  The raised errors are
modelled by `StoreErr`; `Neo4jDriver.execute_read`/`execute_write` contain no
try/except and no retry, so they pass the outcome through unmodified. -/

/-- An error raised by the underlying store/driver. -/
inductive StoreErr where
  | constraintViolation (msg : String)
  | connectivityLoss (msg : String)
  | malformedQuery (msg : String)
deriving DecidableEq

/-- The `str(e)` of a store error. -/
def StoreErr.message : StoreErr → String
  | .constraintViolation m => m
  | .connectivityLoss m => m
  | .malformedQuery m => m

/-- What a handler invocation produces: an HTTP response, or a store error
that escaped the handler because nothing caught it. -/
inductive HandlerOutcome (α : Type) where
  | response (r : HResult α)
  | unhandled (e : StoreErr)
deriving DecidableEq

namespace Neo4jDriver

/-- `Neo4jDriver.execute_read` collects the records; an error from the store
propagates to the caller unmodified (no try/except, no retry). -/
def execute_read (storeResult : Except StoreErr (List ρ)) : Except StoreErr (List ρ) :=
  storeResult

/-- `Neo4jDriver.execute_write`, identical error behaviour to `execute_read`. -/
def execute_write (storeResult : Except StoreErr (List ρ)) : Except StoreErr (List ρ) :=
  storeResult

end Neo4jDriver

/-- `create_user`'s control flow around the store call: it wraps the call in
`try/except Exception` and turns every store error into `HTTPException(400, str(e))`;
a successful call goes through `_single_or_none` (an empty list would fail
response validation, a 500). -/
def createUserOutcome (store : Except StoreErr (List UserOut)) : HandlerOutcome UserOut :=
  match Neo4jDriver.execute_write store with
  | .error e => .response (.err 400 e.message)
  | .ok [] => .response (.err 500 "Internal Server Error")
  | .ok (r :: _) => .response (.ok 201 r)

/-- `get_user`'s control flow: no try/except, a store error escapes. -/
def getUserOutcome (store : Except StoreErr (List UserProfile)) : HandlerOutcome UserProfile :=
  match Neo4jDriver.execute_read store with
  | .error e => .unhandled e
  | .ok recs => .response (getUserRespond recs)

/-- `follow`'s control flow: no try/except, a store error escapes. -/
def followOutcome (store : Except StoreErr (List (String × String))) :
    HandlerOutcome (String × String) :=
  match Neo4jDriver.execute_write store with
  | .error e => .unhandled e
  | .ok recs => .response (followRespond recs)

/-- `unfollow`'s control flow: no try/except; on success the records are
ignored and the answer is `200 {"detail": "OK"}`. -/
def unfollowOutcome (store : Except StoreErr (List Nat)) : HandlerOutcome String :=
  match Neo4jDriver.execute_write store with
  | .error e => .unhandled e
  | .ok _ => .response (.ok 200 "OK")

/-- `create_post`'s control flow: no try/except, a store error escapes. -/
def createPostOutcome (store : Except StoreErr (List PostOut)) : HandlerOutcome PostOut :=
  match Neo4jDriver.execute_write store with
  | .error e => .unhandled e
  | .ok recs => .response (createPostRespond recs)

/-- `get_post`'s control flow: no try/except, a store error escapes. -/
def getPostOutcome (store : Except StoreErr (List PostDetail)) : HandlerOutcome PostDetail :=
  match Neo4jDriver.execute_read store with
  | .error e => .unhandled e
  | .ok recs => .response (getPostRespond recs)

/-- `like_post`'s control flow: no try/except, a store error escapes. -/
def likePostOutcome (store : Except StoreErr (List LikeData)) : HandlerOutcome LikeData :=
  match Neo4jDriver.execute_write store with
  | .error e => .unhandled e
  | .ok recs => .response (likePostRespond recs)

/-- `get_feed`'s control flow: no try/except; the record list is returned
directly with status 200. -/
def getFeedOutcome (store : Except StoreErr (List FeedRow)) : HandlerOutcome (List FeedRow) :=
  match Neo4jDriver.execute_read store with
  | .error e => .unhandled e
  | .ok recs => .response (.ok 200 recs)

/-! ### Concrete scenario graphs used by witnesses and counterexamples -/

/-- The end-to-end scenario of the spec: alice and bob exist, bob follows
alice, alice posted "hello world". -/
def gTest : Graph :=
  let g1 := (create_user emptyGraph "id1" "t1" ⟨"alice", none, none⟩).2
  let g2 := (create_user g1 "id2" "t2" ⟨"bob", none, none⟩).2
  let g3 := (follow g2 "bob" "alice").2
  (create_post g3 "p1" "t3" ⟨"alice", "hello world"⟩).2

/-- A single user with one post of their own (and no FOLLOWS edge). -/
def gUPost : Graph :=
  let g1 := (create_user emptyGraph "id1" "t1" ⟨"u", none, none⟩).2
  (create_post g1 "p1" "t2" ⟨"u", "my own post"⟩).2

/-- The same user after following themself. -/
def gSelf : Graph := (follow gUPost "u" "u").2

/-! ### Helper lemmas -/

theorem strLeAux_total : ∀ xs ys : List Char, strLeAux xs ys = true ∨ strLeAux ys xs = true := by
  intro xs
  induction xs with
  | nil => intro ys; left; rfl
  | cons c cs ih =>
    intro ys
    cases ys with
    | nil => right; rfl
    | cons d ds =>
      by_cases h : c.toNat = d.toNat
      · rcases ih ds with h1 | h1
        · left; simp [strLeAux, h, h1]
        · right; simp [strLeAux, h.symm, h1]
      · rcases Nat.lt_or_ge c.toNat d.toNat with hlt | hge
        · left; simp [strLeAux, h, Nat.blt_eq, hlt]
        · have hlt : d.toNat < c.toNat := Nat.lt_of_le_of_ne hge (fun hh => h hh.symm)
          right
          show strLeAux (d :: ds) (c :: cs) = true
          simp only [strLeAux]
          rw [if_neg (fun hh : d.toNat = c.toNat => h hh.symm)]
          simpa [Nat.blt_eq] using hlt

theorem strLeAux_trans :
    ∀ xs ys zs : List Char, strLeAux xs ys = true → strLeAux ys zs = true →
      strLeAux xs zs = true := by
  intro xs
  induction xs with
  | nil => intro ys zs _ _; rfl
  | cons c cs ih =>
    intro ys zs h1 h2
    cases ys with
    | nil => simp [strLeAux] at h1
    | cons d ds =>
      cases zs with
      | nil => simp [strLeAux] at h2
      | cons e es =>
        simp only [strLeAux] at h1 h2 ⊢
        by_cases hcd : c.toNat = d.toNat
        · rw [if_pos hcd] at h1
          by_cases hde : d.toNat = e.toNat
          · rw [if_pos hde] at h2
            rw [if_pos (hcd.trans hde)]
            exact ih ds es h1 h2
          · rw [if_neg hde] at h2
            simp only [Nat.blt_eq] at h2
            have hne : c.toNat ≠ e.toNat := by omega
            rw [if_neg hne]
            simp only [Nat.blt_eq]
            omega
        · rw [if_neg hcd] at h1
          simp only [Nat.blt_eq] at h1
          by_cases hde : d.toNat = e.toNat
          · rw [if_pos hde] at h2
            have hne : c.toNat ≠ e.toNat := by omega
            rw [if_neg hne]
            simp only [Nat.blt_eq]
            omega
          · rw [if_neg hde] at h2
            simp only [Nat.blt_eq] at h2
            have hne : c.toNat ≠ e.toNat := by omega
            rw [if_neg hne]
            simp only [Nat.blt_eq]
            omega

instance : IsTotal FeedRow feedDescOrder :=
  ⟨fun p q => strLeAux_total q.created_at.data p.created_at.data⟩

instance : IsTrans FeedRow feedDescOrder :=
  ⟨fun p q w h1 h2 => strLeAux_trans w.created_at.data q.created_at.data p.created_at.data h2 h1⟩

theorem userExists_iff {g : Graph} {un : String} :
    userExists g un = true ↔ ∃ x ∈ g.users, x.username = un := by
  simp [userExists]

theorem postExists_iff {g : Graph} {pid : String} :
    postExists g pid = true ↔ ∃ x ∈ g.posts, x.id = pid := by
  simp [postExists]

/-- Number of occurrences of the edge `x` in an edge list. -/
def edgeCount (l : List (String × String)) (x : String × String) : Nat :=
  (l.filter (fun e => e == x)).length

theorem edgeCount_eq_zero {l : List (String × String)} {x : String × String} (hx : x ∉ l) :
    edgeCount l x = 0 := by
  unfold edgeCount
  rw [List.filter_eq_nil_iff.mpr]
  · rfl
  · intro e he
    simp only [beq_iff_eq]
    exact fun hh => hx (hh ▸ he)

theorem edgeCount_eq_one {l : List (String × String)} {x : String × String}
    (h : l.Nodup) (hx : x ∈ l) : edgeCount l x = 1 := by
  induction l with
  | nil => simp at hx
  | cons a as ih =>
    rw [List.nodup_cons] at h
    rcases List.mem_cons.mp hx with rfl | hmem
    · unfold edgeCount
      rw [List.filter_cons_of_pos (by simp)]
      have h0 : edgeCount as x = 0 := edgeCount_eq_zero h.1
      unfold edgeCount at h0
      simp [h0]
    · have hne : a ≠ x := fun hh => h.1 (hh ▸ hmem)
      unfold edgeCount
      rw [List.filter_cons_of_neg (by simp [hne])]
      exact ih h.2 hmem

theorem edgeCount_append_self {l : List (String × String)} {x : String × String} :
    edgeCount (l ++ [x]) x = edgeCount l x + 1 := by
  unfold edgeCount
  rw [List.filter_append]
  simp

/-! ### Write-effect component lemmas -/

theorem followWrite_users (g : Graph) (a b : String) : (followWrite g a b).users = g.users := by
  unfold followWrite
  split
  · split <;> rfl
  · rfl

theorem followWrite_posts (g : Graph) (a b : String) : (followWrite g a b).posts = g.posts := by
  unfold followWrite
  split
  · split <;> rfl
  · rfl

theorem followWrite_posted (g : Graph) (a b : String) : (followWrite g a b).posted = g.posted := by
  unfold followWrite
  split
  · split <;> rfl
  · rfl

theorem followWrite_liked (g : Graph) (a b : String) : (followWrite g a b).liked = g.liked := by
  unfold followWrite
  split
  · split <;> rfl
  · rfl

theorem userExists_followWrite (g : Graph) (a b u : String) :
    userExists (followWrite g a b) u = userExists g u := by
  unfold userExists
  rw [followWrite_users]

theorem postExists_followWrite (g : Graph) (a b pid : String) :
    postExists (followWrite g a b) pid = postExists g pid := by
  unfold postExists
  rw [followWrite_posts]

theorem mem_followWrite (g : Graph) (a b : String)
    (ha : userExists g a = true) (hb : userExists g b = true) :
    (a, b) ∈ (followWrite g a b).follows := by
  unfold followWrite
  rw [if_pos (by simp [ha, hb])]
  by_cases hmem : (a, b) ∈ g.follows
  · rw [if_pos hmem]
    exact hmem
  · rw [if_neg hmem]
    simp

theorem followWrite_follows_of_mem (g : Graph) (a b : String) (hmem : (a, b) ∈ g.follows) :
    followWrite g a b = g := by
  by_cases hc : (userExists g a && userExists g b) = true
  · unfold followWrite
    rw [if_pos hc, if_pos hmem]
  · unfold followWrite
    rw [if_neg hc]

theorem followWrite_follows_of_not_mem (g : Graph) (a b : String)
    (ha : userExists g a = true) (hb : userExists g b = true) (hmem : (a, b) ∉ g.follows) :
    (followWrite g a b).follows = g.follows ++ [(a, b)] := by
  unfold followWrite
  rw [if_pos (by simp [ha, hb]), if_neg hmem]

theorem likePostWrite_users (g : Graph) (pid u : String) :
    (likePostWrite g pid u).users = g.users := by
  unfold likePostWrite
  split
  · split <;> rfl
  · rfl

theorem likePostWrite_posts (g : Graph) (pid u : String) :
    (likePostWrite g pid u).posts = g.posts := by
  unfold likePostWrite
  split
  · split <;> rfl
  · rfl

theorem likePostWrite_posted (g : Graph) (pid u : String) :
    (likePostWrite g pid u).posted = g.posted := by
  unfold likePostWrite
  split
  · split <;> rfl
  · rfl

theorem likePostWrite_follows (g : Graph) (pid u : String) :
    (likePostWrite g pid u).follows = g.follows := by
  unfold likePostWrite
  split
  · split <;> rfl
  · rfl

theorem userExists_likePostWrite (g : Graph) (pid u v : String) :
    userExists (likePostWrite g pid u) v = userExists g v := by
  unfold userExists
  rw [likePostWrite_users]

theorem postExists_likePostWrite (g : Graph) (pid u p : String) :
    postExists (likePostWrite g pid u) p = postExists g p := by
  unfold postExists
  rw [likePostWrite_posts]

theorem mem_likePostWrite (g : Graph) (pid u : String)
    (hu : userExists g u = true) (hp : postExists g pid = true) :
    (u, pid) ∈ (likePostWrite g pid u).liked := by
  unfold likePostWrite
  rw [if_pos (by simp [hu, hp])]
  by_cases hmem : (u, pid) ∈ g.liked
  · rw [if_pos hmem]
    exact hmem
  · rw [if_neg hmem]
    simp

theorem likePostWrite_of_mem (g : Graph) (pid u : String) (hmem : (u, pid) ∈ g.liked) :
    likePostWrite g pid u = g := by
  by_cases hc : (userExists g u && postExists g pid) = true
  · unfold likePostWrite
    rw [if_pos hc, if_pos hmem]
  · unfold likePostWrite
    rw [if_neg hc]

theorem likePostWrite_liked_of_not_mem (g : Graph) (pid u : String)
    (hu : userExists g u = true) (hp : postExists g pid = true) (hmem : (u, pid) ∉ g.liked) :
    (likePostWrite g pid u).liked = g.liked ++ [(u, pid)] := by
  unfold likePostWrite
  rw [if_pos (by simp [hu, hp]), if_neg hmem]

/-- Unfolded characterisation of the feed query's match set. -/
theorem mem_feedRows {g : Graph} {un : String} {row : FeedRow} :
    row ∈ feedRows g un ↔
      (∃ me ∈ g.users, me.username = un) ∧
      ∃ e ∈ g.follows, e.1 = un ∧
        ∃ other ∈ g.users, other.username = e.2 ∧
          ∃ pe ∈ g.posted, pe.1 = other.username ∧
            ∃ p ∈ g.posts, p.id = pe.2 ∧
              row = ⟨p.id, other.username, p.content, p.created_at⟩ := by
  unfold feedRows
  constructor
  · intro h
    rw [List.mem_flatMap] at h
    obtain ⟨me, hme, h⟩ := h
    rw [List.mem_filter] at hme
    rw [List.mem_flatMap] at h
    obtain ⟨e, he, h⟩ := h
    rw [List.mem_filter] at he
    rw [List.mem_flatMap] at h
    obtain ⟨other, hot, h⟩ := h
    rw [List.mem_filter] at hot
    rw [List.mem_flatMap] at h
    obtain ⟨pe, hpe, h⟩ := h
    rw [List.mem_filter] at hpe
    rw [List.mem_map] at h
    obtain ⟨p, hp, hrow⟩ := h
    rw [List.mem_filter] at hp
    exact ⟨⟨me, hme.1, by simpa using hme.2⟩, e, he.1, by simpa using he.2,
      other, hot.1, by simpa using hot.2, pe, hpe.1, by simpa using hpe.2,
      p, hp.1, by simpa using hp.2, hrow.symm⟩
  · rintro ⟨⟨me, hme, hmeu⟩, e, he, he1, other, hot, hot2, pe, hpe, hpe1, p, hp, hpid, hrow⟩
    rw [List.mem_flatMap]
    refine ⟨me, List.mem_filter.mpr ⟨hme, by simp [hmeu]⟩, ?_⟩
    rw [List.mem_flatMap]
    refine ⟨e, List.mem_filter.mpr ⟨he, by simp [he1]⟩, ?_⟩
    rw [List.mem_flatMap]
    refine ⟨other, List.mem_filter.mpr ⟨hot, by simp [hot2]⟩, ?_⟩
    rw [List.mem_flatMap]
    refine ⟨pe, List.mem_filter.mpr ⟨hpe, by simp [hpe1]⟩, ?_⟩
    rw [List.mem_map]
    exact ⟨p, List.mem_filter.mpr ⟨hp, by simp [hpid]⟩, hrow.symm⟩

/-! ### Claim theorems -/

/-- C1: for every ordered pair of usernames such that both User nodes exist,
calling follow twice for that pair leaves exactly one FOLLOWS edge from
follower to followee, and both calls report success (201 with the pair). -/
theorem follow_twice_one_edge (g : Graph) (a b : String) (hwf : g.WF)
    (ha : userExists g a = true) (hb : userExists g b = true) :
    (follow g a b).1 = .ok 201 (a, b) ∧
    (follow (follow g a b).2 a b).1 = .ok 201 (a, b) ∧
    edgeCount ((follow (follow g a b).2 a b).2).follows (a, b) = 1 := by
  obtain ⟨-, -, hnodup, -⟩ := hwf
  have hresp : ∀ g' : Graph, userExists g' a = true → userExists g' b = true →
      (follow g' a b).1 = .ok 201 (a, b) := by
    intro g' ha' hb'
    simp [follow, followRecords, ha', hb', followRespond]
  have ha1 : userExists (follow g a b).2 a = true := by
    show userExists (followWrite g a b) a = true
    rw [userExists_followWrite]
    exact ha
  have hb1 : userExists (follow g a b).2 b = true := by
    show userExists (followWrite g a b) b = true
    rw [userExists_followWrite]
    exact hb
  refine ⟨hresp g ha hb, hresp _ ha1 hb1, ?_⟩
  show edgeCount (followWrite (followWrite g a b) a b).follows (a, b) = 1
  by_cases hmem : (a, b) ∈ g.follows
  · have e1 : followWrite g a b = g := followWrite_follows_of_mem g a b hmem
    rw [e1, e1]
    exact edgeCount_eq_one hnodup hmem
  · have hmem1 : (a, b) ∈ (followWrite g a b).follows := mem_followWrite g a b ha hb
    rw [followWrite_follows_of_mem _ a b hmem1,
        followWrite_follows_of_not_mem g a b ha hb hmem, edgeCount_append_self,
        edgeCount_eq_zero hmem]

theorem follow_twice_one_edge_witness :
    (follow gTest "alice" "bob").1 = .ok 201 ("alice", "bob") ∧
    (follow (follow gTest "alice" "bob").2 "alice" "bob").1 = .ok 201 ("alice", "bob") ∧
    edgeCount ((follow (follow gTest "alice" "bob").2 "alice" "bob").2).follows
      ("alice", "bob") = 1 :=
  follow_twice_one_edge gTest "alice" "bob" (by decide) (by decide) (by decide)

/-- C4: creating a user with the same username twice yields 201 with the
user's public fields the first time, then a 400 conflict raised by the
uniqueness constraint, which leaves the store unchanged. -/
theorem create_user_twice (g : Graph) (id1 t1 id2 t2 : String) (p1 p2 : UserCreate)
    (hfresh : userExists g p1.username = false) (hsame : p2.username = p1.username) :
    (create_user g id1 t1 p1).1 = .ok 201 ⟨id1, p1.username, p1.name, p1.bio⟩ ∧
    (create_user (create_user g id1 t1 p1).2 id2 t2 p2).1 =
      .err 400 "uniqueness constraint violated: username already exists" ∧
    (create_user (create_user g id1 t1 p1).2 id2 t2 p2).2 = (create_user g id1 t1 p1).2 := by
  have hnot : ¬userExists g p1.username = true := by simp [hfresh]
  have h1 : create_user g id1 t1 p1 =
      (.ok 201 ⟨id1, p1.username, p1.name, p1.bio⟩,
       { g with users := g.users ++ [⟨id1, p1.username, p1.name, p1.bio, t1⟩] }) := by
    unfold create_user
    rw [if_neg hnot]
  have hex : userExists (create_user g id1 t1 p1).2 p2.username = true := by
    rw [h1]
    simp [userExists, hsame]
  have key : ∀ G : Graph, userExists G p2.username = true →
      create_user G id2 t2 p2 =
        (.err 400 "uniqueness constraint violated: username already exists", G) := by
    intro G hG
    unfold create_user
    rw [if_pos hG]
  exact ⟨by rw [h1], by rw [key _ hex], by rw [key _ hex]⟩

theorem create_user_twice_witness :
    (create_user emptyGraph "id1" "t1" ⟨"alice", none, none⟩).1 =
      .ok 201 ⟨"id1", "alice", none, none⟩ ∧
    (create_user (create_user emptyGraph "id1" "t1" ⟨"alice", none, none⟩).2 "id2" "t2"
        ⟨"alice", some "A", none⟩).1 =
      .err 400 "uniqueness constraint violated: username already exists" ∧
    (create_user (create_user emptyGraph "id1" "t1" ⟨"alice", none, none⟩).2 "id2" "t2"
        ⟨"alice", some "A", none⟩).2 =
      (create_user emptyGraph "id1" "t1" ⟨"alice", none, none⟩).2 :=
  create_user_twice emptyGraph "id1" "t1" "id2" "t2" ⟨"alice", none, none⟩
    ⟨"alice", some "A", none⟩ (by decide) (by decide)

/-- C5: get-user, get-post, follow, create-post and like report 404 when a
referenced username or post id does not exist, and the failing mutating calls
leave the graph unchanged. -/
theorem notfound_404_no_mutation (g : Graph) :
    (∀ un, userExists g un = false → get_user g un = .err 404 "User not found") ∧
    (∀ pid, postExists g pid = false → get_post g pid = .err 404 "Post not found") ∧
    (∀ a b, (userExists g a && userExists g b) = false →
        follow g a b = (.err 404 "One or both users not found", g)) ∧
    (∀ pid t payload, userExists g payload.author_username = false →
        create_post g pid t payload = (.err 404 "Author not found", g)) ∧
    (∀ pid un, (userExists g un && postExists g pid) = false →
        like_post g pid un = (.err 404 "User or post not found", g)) := by
  refine ⟨?_, ?_, ?_, ?_, ?_⟩
  · intro un h
    simp only [userExists, List.any_eq_false] at h
    have hfil : g.users.filter (fun u => u.username == un) = [] :=
      List.filter_eq_nil_iff.mpr h
    simp [get_user, getUserRecords, hfil, getUserRespond]
  · intro pid h
    simp only [postExists, List.any_eq_false] at h
    have hfil : g.posts.filter (fun p => p.id == pid) = [] :=
      List.filter_eq_nil_iff.mpr h
    simp [get_post, getPostRecords, hfil, getPostRespond]
  · intro a b h
    simp [follow, followRecords, followWrite, followRespond, h]
  · intro pid t payload h
    simp [create_post, createPostRecords, createPostWrite, createPostRespond, h]
  · intro pid un h
    simp [like_post, likePostRecords, likePostWrite, likePostRespond, h]

theorem notfound_404_no_mutation_witness :
    get_user gTest "carol" = .err 404 "User not found" ∧
    get_post gTest "nope" = .err 404 "Post not found" ∧
    follow gTest "alice" "carol" = (.err 404 "One or both users not found", gTest) ∧
    create_post gTest "p9" "t9" ⟨"carol", "hi"⟩ = (.err 404 "Author not found", gTest) ∧
    like_post gTest "nope" "alice" = (.err 404 "User or post not found", gTest) :=
  ⟨(notfound_404_no_mutation gTest).1 "carol" (by decide),
   (notfound_404_no_mutation gTest).2.1 "nope" (by decide),
   (notfound_404_no_mutation gTest).2.2.1 "alice" "carol" (by decide),
   (notfound_404_no_mutation gTest).2.2.2.1 "p9" "t9" ⟨"carol", "hi"⟩ (by decide),
   (notfound_404_no_mutation gTest).2.2.2.2 "nope" "alice" (by decide)⟩

/-- C6: the feed always answers 200 with a (possibly empty) list, for every
username; an unknown username and an existing user with zero followees both
get exactly `.ok 200 []`, indistinguishably. -/
theorem get_feed_never_notfound (g : Graph) (un : String) (limit : Nat) :
    get_feed g un limit = .ok 200 (getFeedRecords g un limit) ∧
    (userExists g un = false → get_feed g un limit = .ok 200 []) ∧
    (g.follows.filter (fun e => e.1 == un) = [] → get_feed g un limit = .ok 200 []) := by
  refine ⟨rfl, ?_, ?_⟩
  · intro h
    simp only [userExists, List.any_eq_false] at h
    have hfil : g.users.filter (fun u => u.username == un) = [] :=
      List.filter_eq_nil_iff.mpr h
    have hrows : feedRows g un = [] := by
      unfold feedRows
      rw [hfil]
      rfl
    simp [get_feed, getFeedRecords, hrows]
  · intro h
    have hrows : feedRows g un = [] := by
      unfold feedRows
      simp only [h]
      simp
    simp [get_feed, getFeedRecords, hrows]

theorem get_feed_never_notfound_witness :
    get_feed gTest "carol" 20 = .ok 200 [] ∧ get_feed gTest "alice" 20 = .ok 200 [] :=
  ⟨(get_feed_never_notfound gTest "carol" 20).2.1 (by decide),
   (get_feed_never_notfound gTest "alice" 20).2.2 (by decide)⟩

/-- C8: unfollow always reports `200 {"detail": "OK"}`, with the same body
whether or not the edge existed; an existing edge is removed (and only that
edge), and with no edge the call is a no-op on the graph. -/
theorem unfollow_lenient (g : Graph) (a b : String) :
    (unfollow g a b).1 = .ok 200 "OK" ∧
    (g.WF → (a, b) ∈ g.follows →
      (a, b) ∉ (unfollow g a b).2.follows ∧
      ∀ e ∈ g.follows, e ≠ (a, b) → e ∈ (unfollow g a b).2.follows) ∧
    ((a, b) ∉ g.follows → (unfollow g a b).2 = g) := by
  refine ⟨rfl, ?_, ?_⟩
  · intro hwf hmem
    obtain ⟨-, -, -, -, hends, -⟩ := hwf
    have ha : userExists g a = true := (hends (a, b) hmem).1
    have hb : userExists g b = true := (hends (a, b) hmem).2
    show (a, b) ∉ (unfollowWrite g a b).follows ∧
      ∀ e ∈ g.follows, e ≠ (a, b) → e ∈ (unfollowWrite g a b).follows
    unfold unfollowWrite
    rw [if_pos (by simp [ha, hb])]
    constructor
    · intro hcontra
      rw [List.mem_filter] at hcontra
      simp at hcontra
    · intro e he hne
      rw [List.mem_filter]
      refine ⟨he, ?_⟩
      have hne' : ¬(e.1 = a ∧ e.2 = b) := by
        rintro ⟨h1, h2⟩
        exact hne (Prod.ext h1 h2)
      rcases not_and_or.mp hne' with h | h <;> simp [h]
  · intro hmem
    show unfollowWrite g a b = g
    unfold unfollowWrite
    by_cases hc : (userExists g a && userExists g b) = true
    · rw [if_pos hc]
      have hfix : g.follows.filter (fun e => !(e.1 == a && e.2 == b)) = g.follows := by
        apply List.filter_eq_self.mpr
        intro e he
        have hne : e ≠ (a, b) := fun hh => hmem (hh ▸ he)
        have hne' : ¬(e.1 = a ∧ e.2 = b) := by
          rintro ⟨h1, h2⟩
          exact hne (Prod.ext h1 h2)
        rcases not_and_or.mp hne' with h | h <;> simp [h]
      rw [hfix]
    · rw [if_neg hc]

theorem unfollow_lenient_witness :
    (unfollow gTest "bob" "alice").1 = .ok 200 "OK" ∧
    ("bob", "alice") ∉ (unfollow gTest "bob" "alice").2.follows ∧
    (unfollow gTest "alice" "bob").2 = gTest :=
  ⟨(unfollow_lenient gTest "bob" "alice").1,
   ((unfollow_lenient gTest "bob" "alice").2.1 (by decide) (by decide)).1,
   (unfollow_lenient gTest "alice" "bob").2.2 (by decide)⟩

/-- C9 counterexample: during create-user, a connectivity loss (not a
uniqueness-constraint violation) is translated by the handler's
`except Exception` block into a classified 400 client error instead of
surfacing as an unclassified failure. -/
theorem create_user_translates_store_failure :
    createUserOutcome (.error (.connectivityLoss "connection refused")) =
      .response (.err 400 "connection refused") ∧
    createUserOutcome (.error (.connectivityLoss "connection refused")) ≠
      .unhandled (.connectivityLoss "connection refused") := by
  refine ⟨rfl, ?_⟩
  intro h
  simp [createUserOutcome, Neo4jDriver.execute_write] at h

/-- C9 amended: the adapter propagates every store error unmodified, and every
handler except create-user lets a store error escape unclassified; create-user
alone translates every store error — uniqueness violation or not — into a 400
client error carrying the error's message. -/
theorem store_errors_propagate (α : Type) (s : Except StoreErr (List α)) (e : StoreErr) :
    Neo4jDriver.execute_write s = s ∧
    Neo4jDriver.execute_read s = s ∧
    getUserOutcome (.error e) = .unhandled e ∧
    followOutcome (.error e) = .unhandled e ∧
    unfollowOutcome (.error e) = .unhandled e ∧
    createPostOutcome (.error e) = .unhandled e ∧
    getPostOutcome (.error e) = .unhandled e ∧
    likePostOutcome (.error e) = .unhandled e ∧
    getFeedOutcome (.error e) = .unhandled e ∧
    createUserOutcome (.error e) = .response (.err 400 e.message) :=
  ⟨rfl, rfl, rfl, rfl, rfl, rfl, rfl, rfl, rfl, rfl⟩

/-- C2: the feed answers 200 with at most `limit` rows, each one reached by a
FOLLOWS hop from the requester and a POSTED hop to the post, sorted by
`created_at` descending, and with exactly `limit` rows whenever the match set
has at least `limit` rows. -/
theorem get_feed_spec (g : Graph) (un : String) (limit : Nat) :
    get_feed g un limit = .ok 200 (getFeedRecords g un limit) ∧
    (getFeedRecords g un limit).length ≤ limit ∧
    (∀ row ∈ getFeedRecords g un limit,
        (un, row.author_username) ∈ g.follows ∧ (row.author_username, row.id) ∈ g.posted) ∧
    (getFeedRecords g un limit).Sorted feedDescOrder ∧
    (limit ≤ (feedRows g un).length → (getFeedRecords g un limit).length = limit) := by
  refine ⟨rfl, ?_, ?_, ?_, ?_⟩
  · exact List.length_take_le _ _
  · intro row hrow
    have hmem : row ∈ feedRows g un := by
      have h1 := List.mem_of_mem_take hrow
      simpa using h1
    rw [mem_feedRows] at hmem
    obtain ⟨-, e, he, he1, other, -, hot2, pe, hpe, hpe1, p, -, hpid, hrow'⟩ := hmem
    subst hrow'
    constructor
    · show (un, other.username) ∈ g.follows
      have hee : (un, other.username) = e := Prod.ext he1.symm hot2
      rw [hee]
      exact he
    · show (other.username, p.id) ∈ g.posted
      have hpe' : (other.username, p.id) = pe := Prod.ext hpe1.symm hpid
      rw [hpe']
      exact hpe
  · exact (List.sorted_insertionSort feedDescOrder (feedRows g un)).sublist
      (List.take_sublist limit _)
  · intro hlim
    unfold getFeedRecords
    rw [List.length_take, (List.perm_insertionSort feedDescOrder (feedRows g un)).length_eq]
    exact min_eq_left hlim

theorem get_feed_spec_witness :
    get_feed gTest "bob" 1 = .ok 200 (getFeedRecords gTest "bob" 1) ∧
    (getFeedRecords gTest "bob" 1).length = 1 :=
  ⟨(get_feed_spec gTest "bob" 1).1, (get_feed_spec gTest "bob" 1).2.2.2.2 (by decide)⟩

/-- C7 counterexample: in the well-formed state reached by creating user "u",
letting "u" follow themself and posting "p1", the feed for "u" contains "u"'s
own post — so the feed is not free of the requester's own posts. -/
theorem feed_contains_own_post :
    gSelf.WF ∧ ("u", "p1") ∈ gSelf.posted ∧
    getFeedRecords gSelf "u" 20 = [⟨"p1", "u", "my own post", "t2"⟩] := by
  refine ⟨by decide, by decide, by decide⟩

/-- Under the store invariants, a post's author is unique. -/
theorem posted_author_unique {g : Graph} (hwf : g.WF) :
    ∀ e ∈ g.posted, ∀ f ∈ g.posted, e.2 = f.2 → e.1 = f.1 := by
  obtain ⟨-, -, -, -, -, -, -, hpair⟩ := hwf
  have hsym : Symmetric (fun (e f : String × String) => e.2 = f.2 → e.1 = f.1) := by
    intro x y hxy h
    exact (hxy h.symm).symm
  have hrefl : ∀ x ∈ g.posted, x.2 = x.2 → x.1 = x.1 := fun x _ _ => rfl
  exact fun e he f hf => hpair.forall_of_forall hsym hrefl he hf

/-- C7 amended: for every user with no self-FOLLOWS edge, the feed contains no
post authored by that user; only posts reached via a FOLLOWS edge are
returned, and a self-FOLLOWS edge (which the follow endpoint accepts) is the
one way the requester's own posts get in. -/
theorem feed_no_own_posts_without_self_follow (g : Graph) (un : String) (limit : Nat)
    (hwf : g.WF) (hself : (un, un) ∉ g.follows) :
    ∀ row ∈ getFeedRecords g un limit, (un, row.id) ∉ g.posted := by
  intro row hrow hcontra
  have hmem : row ∈ feedRows g un := by
    have h1 := List.mem_of_mem_take hrow
    simpa using h1
  rw [mem_feedRows] at hmem
  obtain ⟨-, e, he, he1, other, -, hot2, pe, hpe, hpe1, p, -, hpid, hrow'⟩ := hmem
  have hpe2 : pe.2 = row.id := by
    rw [hrow']
    exact hpid.symm
  have hpe1un : pe.1 = un :=
    posted_author_unique hwf pe hpe (un, row.id) hcontra hpe2
  have hou : other.username = un := hpe1.symm.trans hpe1un
  have hee : (un, un) = e := Prod.ext he1.symm (hou ▸ hot2)
  exact hself (hee ▸ he)

theorem feed_no_own_posts_without_self_follow_witness :
    ("bob", "p1") ∉ gTest.posted :=
  feed_no_own_posts_without_self_follow gTest "bob" 20 (by decide) (by decide)
    ⟨"p1", "alice", "hello world", "t3"⟩ (by decide)

/-- `count(DISTINCT ...)` of the users with a LIKED edge into a post. -/
def distinctLikers (g : Graph) (pid : String) : List String :=
  ((g.liked.filter (fun e => e.2 == pid)).map Prod.fst).dedup

/-- Every record the get-post query returns for `pid` carries
`likes = likesCount g pid`. -/
theorem mem_getPostRecords_likes {g : Graph} {pid : String} {d : PostDetail}
    (hd : d ∈ getPostRecords g pid) : d.likes = likesCount g pid := by
  unfold getPostRecords at hd
  rw [List.mem_flatMap] at hd
  obtain ⟨p, hp, hd⟩ := hd
  rw [List.mem_filter] at hp
  rw [List.mem_map] at hd
  obtain ⟨e, -, hde⟩ := hd
  have hpid : p.id = pid := by simpa using hp.2
  rw [← hde, hpid]

/-- Under the store invariants, the like tally of the get-post query equals
the number of distinct liking users. -/
theorem likesCount_eq_distinct {g : Graph} (hwf : g.WF) (pid : String) :
    likesCount g pid = (distinctLikers g pid).length := by
  obtain ⟨-, -, -, h4, -, h6, -⟩ := hwf
  unfold likesCount distinctLikers
  have hfil : g.liked.filter (fun e => e.2 == pid && userExists g e.1) =
      g.liked.filter (fun e => e.2 == pid) := by
    apply List.filter_congr
    intro e he
    have hex := (h6 e he).1
    simp [hex]
  rw [hfil]
  have hnodup : (g.liked.filter (fun e => e.2 == pid)).Nodup := h4.filter _
  have hmapnodup : ((g.liked.filter (fun e => e.2 == pid)).map Prod.fst).Nodup := by
    apply List.Nodup.map_on ?_ hnodup
    intro x hx y hy hxy
    rw [List.mem_filter] at hx hy
    have hx2 : x.2 = pid := by simpa using hx.2
    have hy2 : y.2 = pid := by simpa using hy.2
    exact Prod.ext hxy (hx2.trans hy2.symm)
  rw [List.dedup_eq_self.mpr hmapnodup, List.length_map]

/-- C3: the `likes` field of get-post equals the number of distinct users
with a LIKED edge to the post; liking twice leaves exactly one LIKED edge for
the pair, both calls succeed, and the repeated like does not change the store
(hence not the reported count). -/
theorem like_twice_likes_distinct (g : Graph) (pid u : String) (hwf : g.WF)
    (hu : userExists g u = true) (hp : postExists g pid = true) :
    (∀ pid' d, get_post g pid' = .ok 200 d → d.likes = (distinctLikers g pid').length) ∧
    (like_post g pid u).1 = .ok 200 ⟨u, pid⟩ ∧
    (like_post (like_post g pid u).2 pid u).1 = .ok 200 ⟨u, pid⟩ ∧
    (like_post (like_post g pid u).2 pid u).2 = (like_post g pid u).2 ∧
    edgeCount ((like_post (like_post g pid u).2 pid u).2).liked (u, pid) = 1 := by
  obtain ⟨-, -, -, h4, -⟩ := id hwf
  have hresp : ∀ g' : Graph, userExists g' u = true → postExists g' pid = true →
      (like_post g' pid u).1 = .ok 200 ⟨u, pid⟩ := by
    intro g' hu' hp'
    simp [like_post, likePostRecords, hu', hp', likePostRespond]
  have hu1 : userExists (like_post g pid u).2 u = true := by
    show userExists (likePostWrite g pid u) u = true
    rw [userExists_likePostWrite]
    exact hu
  have hp1 : postExists (like_post g pid u).2 pid = true := by
    show postExists (likePostWrite g pid u) pid = true
    rw [postExists_likePostWrite]
    exact hp
  have hmem1 : (u, pid) ∈ (likePostWrite g pid u).liked := mem_likePostWrite g pid u hu hp
  have hsecond : (like_post (like_post g pid u).2 pid u).2 = (like_post g pid u).2 :=
    likePostWrite_of_mem _ pid u hmem1
  refine ⟨?_, hresp g hu hp, hresp _ hu1 hp1, hsecond, ?_⟩
  · intro pid' d hok
    have hd : d ∈ getPostRecords g pid' := by
      unfold get_post at hok
      cases hrecs : getPostRecords g pid' with
      | nil =>
        rw [hrecs] at hok
        simp [getPostRespond] at hok
      | cons r rs =>
        rw [hrecs] at hok
        simp only [getPostRespond, HResult.ok.injEq] at hok
        rw [← hok.2]
        exact List.mem_cons_self r rs
    rw [mem_getPostRecords_likes hd]
    exact likesCount_eq_distinct hwf pid'
  · rw [hsecond]
    show edgeCount (likePostWrite g pid u).liked (u, pid) = 1
    by_cases hmem : (u, pid) ∈ g.liked
    · rw [likePostWrite_of_mem g pid u hmem]
      exact edgeCount_eq_one h4 hmem
    · rw [likePostWrite_liked_of_not_mem g pid u hu hp hmem, edgeCount_append_self,
          edgeCount_eq_zero hmem]

theorem like_twice_likes_distinct_witness :
    (like_post gTest "p1" "bob").1 = .ok 200 ⟨"bob", "p1"⟩ ∧
    edgeCount ((like_post (like_post gTest "p1" "bob").2 "p1" "bob").2).liked ("bob", "p1") = 1 ∧
    (⟨"p1", "alice", "hello world", "t3", 0⟩ : PostDetail).likes =
      (distinctLikers gTest "p1").length :=
  ⟨(like_twice_likes_distinct gTest "p1" "bob" (by decide) (by decide) (by decide)).2.1,
   (like_twice_likes_distinct gTest "p1" "bob" (by decide) (by decide) (by decide)).2.2.2.2,
   (like_twice_likes_distinct gTest "p1" "bob" (by decide) (by decide) (by decide)).1 "p1"
     ⟨"p1", "alice", "hello world", "t3", 0⟩ (by decide)⟩

/-- Every record of the get-user query carries the three aggregate counts. -/
theorem mem_getUserRecords_counts {g : Graph} {un : String} {d : UserProfile}
    (hd : d ∈ getUserRecords g un) :
    d.following_count = (distinctFollowees g un).length ∧
    d.followers_count = (distinctFollowers g un).length ∧
    d.posts_count = (distinctPosts g un).length := by
  unfold getUserRecords at hd
  rw [List.mem_map] at hd
  obtain ⟨x, -, hx⟩ := hd
  rw [← hx]
  exact ⟨rfl, rfl, rfl⟩

/-- C10: follow accepts a self-pair — for an existing user `u`, follow(u, u)
succeeds with 201, merges the self-FOLLOWS edge, after which `u` is counted
among their own distinct followees and followers (so in both counts reported
by get-user), and every post authored by `u` matches `u`'s own feed query. -/
theorem follow_self (g : Graph) (u : String) (hwf : g.WF) (hu : userExists g u = true) :
    (follow g u u).1 = .ok 201 (u, u) ∧
    (u, u) ∈ (follow g u u).2.follows ∧
    u ∈ distinctFollowees (follow g u u).2 u ∧
    u ∈ distinctFollowers (follow g u u).2 u ∧
    (∃ d, get_user (follow g u u).2 u = .ok 200 d ∧
        d.following_count = (distinctFollowees (follow g u u).2 u).length ∧
        d.followers_count = (distinctFollowers (follow g u u).2 u).length) ∧
    (∀ pid, (u, pid) ∈ g.posted →
        ∃ row ∈ feedRows (follow g u u).2 u, row.id = pid ∧ row.author_username = u) := by
  obtain ⟨-, -, -, -, -, -, h7, -⟩ := hwf
  have hresp : (follow g u u).1 = .ok 201 (u, u) := by
    simp [follow, followRecords, hu, followRespond]
  have hmem : (u, u) ∈ (followWrite g u u).follows := mem_followWrite g u u hu hu
  have hu' : userExists (followWrite g u u) u = true := by
    rw [userExists_followWrite]
    exact hu
  have hfee : u ∈ distinctFollowees (followWrite g u u) u := by
    unfold distinctFollowees
    rw [List.mem_dedup, List.mem_map]
    exact ⟨(u, u), List.mem_filter.mpr ⟨hmem, by simp [hu']⟩, rfl⟩
  have hfer : u ∈ distinctFollowers (followWrite g u u) u := by
    unfold distinctFollowers
    rw [List.mem_dedup, List.mem_map]
    exact ⟨(u, u), List.mem_filter.mpr ⟨hmem, by simp [hu']⟩, rfl⟩
  refine ⟨hresp, hmem, hfee, hfer, ?_, ?_⟩
  · cases hrecs : getUserRecords (followWrite g u u) u with
    | nil =>
      exfalso
      rw [userExists_iff] at hu'
      obtain ⟨x, hx, hxu⟩ := hu'
      have : x ∈ (followWrite g u u).users.filter (fun v => v.username == u) :=
        List.mem_filter.mpr ⟨hx, by simp [hxu]⟩
      unfold getUserRecords at hrecs
      rw [List.map_eq_nil_iff] at hrecs
      rw [hrecs] at this
      simp at this
    | cons d rest =>
      have hd : d ∈ getUserRecords (followWrite g u u) u := by
        rw [hrecs]
        exact List.mem_cons_self d rest
      obtain ⟨hc1, hc2, -⟩ := mem_getUserRecords_counts hd
      refine ⟨d, ?_, hc1, hc2⟩
      show getUserRespond (getUserRecords (followWrite g u u) u) = .ok 200 d
      rw [hrecs]
      rfl
  · intro pid hpid
    have hgw : (follow g u u).2 = followWrite g u u := rfl
    rw [hgw]
    have hpost : postExists g pid = true := (h7 (u, pid) hpid).2
    rw [postExists_iff] at hpost
    obtain ⟨p, hpmem, hpeq⟩ := hpost
    rw [userExists_iff] at hu
    obtain ⟨me, hme, hmeu⟩ := hu
    refine ⟨⟨p.id, me.username, p.content, p.created_at⟩, ?_, by rw [hpeq], by rw [hmeu]⟩
    rw [mem_feedRows]
    refine ⟨⟨me, ?_, hmeu⟩, (u, u), hmem, rfl, me, ?_, by rw [hmeu], (u, pid), ?_, by rw [hmeu],
      p, ?_, by rw [hpeq], rfl⟩
    · rw [followWrite_users]
      exact hme
    · rw [followWrite_users]
      exact hme
    · rw [followWrite_posted]
      exact hpid
    · rw [followWrite_posts]
      exact hpmem

theorem follow_self_witness :
    (follow gUPost "u" "u").1 = .ok 201 ("u", "u") ∧
    ("u", "u") ∈ (follow gUPost "u" "u").2.follows ∧
    "u" ∈ distinctFollowees (follow gUPost "u" "u").2 "u" ∧
    (∃ row ∈ feedRows (follow gUPost "u" "u").2 "u",
        row.id = "p1" ∧ row.author_username = "u") :=
  ⟨(follow_self gUPost "u" (by decide) (by decide)).1,
   (follow_self gUPost "u" (by decide) (by decide)).2.1,
   (follow_self gUPost "u" (by decide) (by decide)).2.2.1,
   (follow_self gUPost "u" (by decide) (by decide)).2.2.2.2.2 "p1" (by decide)⟩

end Neo4jSocmed
